import Mathlib

/-!
Verification of the SmartHouse analytics layer (`persistence.py`).

The store is modelled as the three tables `rooms`, `devices`, `measurements`
given as lists of rows.  Measurement values are rationals (SQLite REAL,
kept exact here), timestamps are calendar date-times ordered
chronologically, which is the order SQLite's `datetime()` induces on the
stored text representation.  Each analytics operation is translated to a
pure function on the store; a state-passing variant over a `Session`
(store plus cursor) captures the shared-cursor behaviour of the source.
-/

/-- A calendar timestamp, the parsed form of the `time_stamp` column after
SQLite's `DATETIME()` normalisation. -/
structure DateTime where
  year : Nat
  month : Nat
  day : Nat
  hour : Nat
  minute : Nat
  second : Nat
deriving DecidableEq, Repr

/-- A calendar date, the result of SQLite's `DATE()` applied to a timestamp. -/
structure Date where
  year : Nat
  month : Nat
  day : Nat
deriving DecidableEq, Repr

/-- Date part of a timestamp, as computed by `DATE(time_stamp)`. -/
def DateTime.dateOf (t : DateTime) : Date :=
  ⟨t.year, t.month, t.day⟩

/-- Executable strict chronological comparison of two timestamps: the
field-lexicographic order that `ORDER BY datetime(time_stamp)` uses. -/
def DateTime.ltb (a b : DateTime) : Bool :=
  if a.year ≠ b.year then decide (a.year < b.year)
  else if a.month ≠ b.month then decide (a.month < b.month)
  else if a.day ≠ b.day then decide (a.day < b.day)
  else if a.hour ≠ b.hour then decide (a.hour < b.hour)
  else if a.minute ≠ b.minute then decide (a.minute < b.minute)
  else decide (a.second < b.second)

/-- Executable non-strict chronological comparison (used by `BETWEEN`). -/
def DateTime.leb (a b : DateTime) : Bool :=
  !(DateTime.ltb b a)

/-- Strict chronological order on timestamps, stated as a proposition. -/
def DateTime.Lt (a b : DateTime) : Prop :=
  a.year < b.year ∨ (a.year = b.year ∧ (a.month < b.month ∨ (a.month = b.month ∧
    (a.day < b.day ∨ (a.day = b.day ∧ (a.hour < b.hour ∨ (a.hour = b.hour ∧
      (a.minute < b.minute ∨ (a.minute = b.minute ∧ a.second < b.second)))))))))

/-- Non-strict chronological order on timestamps. -/
def DateTime.Le (a b : DateTime) : Prop :=
  DateTime.Lt a b ∨ a = b

instance (a b : DateTime) : Decidable (DateTime.Lt a b) := by
  unfold DateTime.Lt
  infer_instance

instance (a b : DateTime) : Decidable (DateTime.Le a b) := by
  unfold DateTime.Le
  infer_instance

/-- A row of the `rooms(id, name)` table. -/
structure RoomRow where
  id : Nat
  name : String
deriving DecidableEq, Repr

/-- A row of the `devices(id, type, room)` table; `room` is a nullable
foreign key into `rooms`. -/
structure DeviceRow where
  id : Nat
  dtype : String
  room : Option Nat
deriving DecidableEq, Repr

/-- A row of the `measurements(device, value, time_stamp)` table. -/
structure MeasurementRow where
  device : Nat
  value : ℚ
  time_stamp : DateTime
deriving DecidableEq, Repr

/-- The persisted contents of the three tables. -/
structure Store where
  rooms : List RoomRow
  devices : List DeviceRow
  measurements : List MeasurementRow
deriving DecidableEq, Repr

/-- Modelled from the spec: the `Device` domain object of the repository's
`devices` module, which is not among the analytics sources.  Per the spec's
data model a device carries an identity, a type tag, an owning room and an
external handle `db_id` correlating it to measurement rows; the analytics
queries read only `db_id`. -/
structure Device where
  id : Nat
  dtype : String
  room : Option Nat
  db_id : Nat
deriving DecidableEq, Repr

/-- One step of scanning for the chronologically latest measurement row,
realising `ORDER BY datetime(time_stamp) DESC limit 1`. -/
def laterOf (best : Option MeasurementRow) (m : MeasurementRow) : Option MeasurementRow :=
  match best with
  | none => some m
  | some b => if DateTime.ltb b.time_stamp m.time_stamp then some m else some b

/-- `get_most_recent_sensor_reading`: the value of the device's measurement
row with the latest timestamp, or `none` when the device has no rows. -/
def get_most_recent_sensor_reading (s : Store) (sensor : Device) : Option ℚ :=
  ((s.measurements.filter (fun m => decide (m.device = sensor.db_id))).foldl
    laterOf none).map (fun m => m.value)

/-- The joined row set of `get_coldest_room`: measurements joined with
`devices` on `d.id = m.device` and with `rooms` on `r.id = d.room`,
projected to `(r.name, m.value)`.  No device-type condition appears. -/
def coldestJoin (s : Store) : List (String × ℚ) :=
  s.measurements.flatMap (fun m =>
    (s.devices.filter (fun d => decide (d.id = m.device))).flatMap (fun d =>
      (s.rooms.filter (fun r => decide (some r.id = d.room))).map
        (fun r => (r.name, m.value))))

/-- One step of the `min(value)`-with-bare-column aggregate: keep the pair
with the smaller value, the earlier row on ties. -/
def colderOf (best : Option (String × ℚ)) (p : String × ℚ) : Option (String × ℚ) :=
  match best with
  | none => some p
  | some b => if p.2 < b.2 then some p else some b

/-- `get_coldest_room`: the room name of a joined row achieving the global
minimum value, or `none` when the join is empty (the Python code also
returns `None` then, via the `(NULL, NULL)` aggregate row). -/
def get_coldest_room (s : Store) : Option String :=
  ((coldestJoin s).foldl colderOf none).map (fun p => p.1)

/-- `get_sensor_readings_in_timespan`: the values of the device's rows whose
timestamp lies in the inclusive chronological range, in table order. -/
def get_sensor_readings_in_timespan (s : Store) (sensor : Device)
    (from_ts to_ts : DateTime) : List ℚ :=
  (s.measurements.filter (fun m =>
    decide (m.device = sensor.db_id) &&
    DateTime.leb from_ts m.time_stamp && DateTime.leb m.time_stamp to_ts)).map
    (fun m => m.value)

/-- The joined row set of `describe_temperature_in_rooms`: measurements of
devices with `d.type = 'Temperatursensor'` joined to their rooms, projected
to `(r.name, m.value)`. -/
def tempJoin (s : Store) : List (String × ℚ) :=
  s.measurements.flatMap (fun m =>
    (s.devices.filter (fun d =>
      decide (d.id = m.device) && decide (d.dtype = "Temperatursensor"))).flatMap (fun d =>
      (s.rooms.filter (fun r => decide (some r.id = d.room))).map
        (fun r => (r.name, m.value))))

/-- The temperature values of the group `GROUP BY r.name` for one room. -/
def roomTempValues (s : Store) (n : String) : List ℚ :=
  (tempJoin s).filterMap (fun p => if p.1 = n then some p.2 else none)

/-- SQLite `min(value)` over a group; groups produced by `GROUP BY` are
never empty, so the `[]` branch is never reached. -/
def aggMin : List ℚ → ℚ
  | [] => 0
  | x :: xs => xs.foldl min x

/-- SQLite `max(value)` over a group; the `[]` branch is never reached. -/
def aggMax : List ℚ → ℚ
  | [] => 0
  | x :: xs => xs.foldl max x

/-- `describe_temperature_in_rooms`: one entry per room name occurring in
the temperature join, mapped to `(min, max, avg)` of its group values. -/
def describe_temperature_in_rooms (s : Store) : List (String × (ℚ × ℚ × ℚ)) :=
  ((tempJoin s).map Prod.fst).dedup.map (fun n =>
    (n, (aggMin (roomTempValues s n), aggMax (roomTempValues s n),
      (roomTempValues s n).sum / ((roomTempValues s n).length : ℚ))))

/-- The values feeding the scalar subquery of
`get_hours_when_humidity_above_average`: measurements of the hardcoded
device `21` on the given day. -/
def device21DayValues (s : Store) (day : Date) : List ℚ :=
  (s.measurements.filter (fun m =>
    decide (m.device = 21) && decide (DateTime.dateOf m.time_stamp = day))).map
    (fun m => m.value)

/-- `SELECT AVG(value) ...` of the subquery: `none` models the SQL `NULL`
returned when device `21` has no rows on the day. -/
def humidityThreshold (s : Store) (day : Date) : Option ℚ :=
  match device21DayValues s day with
  | [] => none
  | v :: vs => some ((v :: vs).sum / (((v :: vs).length : ℕ) : ℚ))

/-- The qualifying rows of `get_hours_when_humidity_above_average`:
humidity-sensor measurements joined into the named room, on the given day,
whose value strictly exceeds the subquery average (a comparison with the
SQL `NULL` average holds for no row). -/
def humidityRows (s : Store) (room_name : String) (day : Date) : List MeasurementRow :=
  (s.measurements.flatMap (fun m =>
    (s.devices.filter (fun d =>
      decide (d.id = m.device) && decide (d.dtype = "Fuktighetssensor"))).flatMap (fun d =>
      (s.rooms.filter (fun r =>
        decide (some r.id = d.room) && decide (r.name = room_name))).map
        (fun _ => m)))).filter (fun m =>
    decide (DateTime.dateOf m.time_stamp = day) &&
    (match humidityThreshold s day with
     | none => false
     | some t => decide (t < m.value)))

/-- `get_hours_when_humidity_above_average`: the hours whose group of
qualifying rows has `COUNT(m.value) > 3`. -/
def get_hours_when_humidity_above_average (s : Store) (room_name : String)
    (day : Date) : List Nat :=
  (((humidityRows s room_name day).map (fun m => m.time_stamp.hour)).dedup).filter
    (fun h => decide (3 < ((humidityRows s room_name day).filter
      (fun m => decide (m.time_stamp.hour = h))).length))

/-- A value in a fetched cursor row; `null` models SQL `NULL`. -/
inductive Cell where
  | null : Cell
  | str : String → Cell
  | num : ℚ → Cell
deriving DecidableEq, Repr

/-- Two-digit rendering of an hour, as `STRFTIME('%H', ...)` produces. -/
def pad2 (n : Nat) : String :=
  if n < 10 then "0" ++ toString n else toString n

/-- The persistence layer state: the tables plus the shared cursor holding
the rows of the last executed query. -/
structure Session where
  db : Store
  cursorRows : List (List Cell)
deriving DecidableEq, Repr

/-- Cursor contents after the `get_most_recent_sensor_reading` query. -/
def mostRecentRows (s : Store) (sensor : Device) : List (List Cell) :=
  match (s.measurements.filter (fun m => decide (m.device = sensor.db_id))).foldl
      laterOf none with
  | none => []
  | some m => [[Cell.num m.value]]

/-- Cursor contents after the `get_coldest_room` aggregate query, which
yields a single `(NULL, NULL)` row on an empty join. -/
def coldestRows (s : Store) : List (List Cell) :=
  match (coldestJoin s).foldl colderOf none with
  | none => [[Cell.null, Cell.null]]
  | some p => [[Cell.str p.1, Cell.num p.2]]

/-- Cursor contents after the `get_sensor_readings_in_timespan` query. -/
def timespanRows (s : Store) (sensor : Device) (from_ts to_ts : DateTime) :
    List (List Cell) :=
  (s.measurements.filter (fun m =>
    decide (m.device = sensor.db_id) &&
    DateTime.leb from_ts m.time_stamp && DateTime.leb m.time_stamp to_ts)).map
    (fun m => [Cell.num m.value])

/-- Cursor contents after the `describe_temperature_in_rooms` query. -/
def describeRows (s : Store) : List (List Cell) :=
  (describe_temperature_in_rooms s).map (fun e =>
    [Cell.str e.1, Cell.num e.2.1, Cell.num e.2.2.1, Cell.num e.2.2.2])

/-- Cursor contents after the `get_hours_when_humidity_above_average`
query; hours appear as the two-character strings of `STRFTIME('%H')`. -/
def hourRows (s : Store) (room_name : String) (day : Date) : List (List Cell) :=
  (get_hours_when_humidity_above_average s room_name day).map
    (fun h => [Cell.str (pad2 h)])

/-- State-passing form of `get_most_recent_sensor_reading`: executing the
`SELECT` replaces the cursor contents and leaves the tables untouched. -/
def runGetMostRecentSensorReading (sess : Session) (sensor : Device) :
    Session × Option ℚ :=
  (⟨sess.db, mostRecentRows sess.db sensor⟩,
    get_most_recent_sensor_reading sess.db sensor)

/-- State-passing form of `get_coldest_room`. -/
def runGetColdestRoom (sess : Session) : Session × Option String :=
  (⟨sess.db, coldestRows sess.db⟩, get_coldest_room sess.db)

/-- State-passing form of `get_sensor_readings_in_timespan`. -/
def runGetSensorReadingsInTimespan (sess : Session) (sensor : Device)
    (from_ts to_ts : DateTime) : Session × List ℚ :=
  (⟨sess.db, timespanRows sess.db sensor from_ts to_ts⟩,
    get_sensor_readings_in_timespan sess.db sensor from_ts to_ts)

/-- State-passing form of `describe_temperature_in_rooms`. -/
def runDescribeTemperatureInRooms (sess : Session) :
    Session × List (String × (ℚ × ℚ × ℚ)) :=
  (⟨sess.db, describeRows sess.db⟩, describe_temperature_in_rooms sess.db)

/-- State-passing form of `get_hours_when_humidity_above_average`. -/
def runGetHoursWhenHumidityAboveAverage (sess : Session) (room_name : String)
    (day : Date) : Session × List Nat :=
  (⟨sess.db, hourRows sess.db room_name day⟩,
    get_hours_when_humidity_above_average sess.db room_name day)


/-- Replacing every device type tag while keeping ids, rooms and
measurements; used to state that a query ignores the type column. -/
def retypeDevices (f : String → String) (s : Store) : Store :=
  ⟨s.rooms, s.devices.map (fun d => ⟨d.id, f d.dtype, d.room⟩), s.measurements⟩


/-- A sample store for the humidity query: device `21` records `50` on the
day, room `Stue` has four qualifying rows in hour 10 and three in hour 11. -/
def humidityStore : Store :=
  ⟨[⟨1, "Stue"⟩, ⟨2, "Bad"⟩],
    [⟨9, "Fuktighetssensor", some 1⟩, ⟨21, "Fuktighetssensor", some 2⟩],
    [⟨21, 50, ⟨2024, 3, 5, 8, 0, 0⟩⟩,
      ⟨9, 60, ⟨2024, 3, 5, 10, 0, 0⟩⟩, ⟨9, 61, ⟨2024, 3, 5, 10, 5, 0⟩⟩,
      ⟨9, 62, ⟨2024, 3, 5, 10, 10, 0⟩⟩, ⟨9, 63, ⟨2024, 3, 5, 10, 15, 0⟩⟩,
      ⟨9, 70, ⟨2024, 3, 5, 11, 0, 0⟩⟩, ⟨9, 71, ⟨2024, 3, 5, 11, 5, 0⟩⟩,
      ⟨9, 72, ⟨2024, 3, 5, 11, 10, 0⟩⟩]⟩

/-- The day queried against `humidityStore`. -/
def humidityDay : Date := ⟨2024, 3, 5⟩

/-- The qualifying rows of `humidityStore` for room `Stue` on that day. -/
def humidityStoreRows : List MeasurementRow :=
  [⟨9, 60, ⟨2024, 3, 5, 10, 0, 0⟩⟩, ⟨9, 61, ⟨2024, 3, 5, 10, 5, 0⟩⟩,
    ⟨9, 62, ⟨2024, 3, 5, 10, 10, 0⟩⟩, ⟨9, 63, ⟨2024, 3, 5, 10, 15, 0⟩⟩,
    ⟨9, 70, ⟨2024, 3, 5, 11, 0, 0⟩⟩, ⟨9, 71, ⟨2024, 3, 5, 11, 5, 0⟩⟩,
    ⟨9, 72, ⟨2024, 3, 5, 11, 10, 0⟩⟩]

theorem DateTime.ltb_iff (a b : DateTime) :
    DateTime.ltb a b = true ↔ DateTime.Lt a b := by
  cases a; cases b
  simp only [DateTime.ltb, DateTime.Lt]
  split_ifs <;> simp only [decide_eq_true_eq] <;> omega

theorem DateTime.not_Lt_iff (a b : DateTime) :
    ¬ DateTime.Lt b a ↔ DateTime.Le a b := by
  cases a; cases b
  simp only [DateTime.Lt, DateTime.Le, DateTime.mk.injEq]
  omega

theorem DateTime.leb_iff (a b : DateTime) :
    DateTime.leb a b = true ↔ DateTime.Le a b := by
  rw [← DateTime.not_Lt_iff, ← DateTime.ltb_iff]
  simp [DateTime.leb]

theorem DateTime.Lt_trans {a b c : DateTime} :
    DateTime.Lt a b → DateTime.Lt b c → DateTime.Lt a c := by
  cases a; cases b; cases c
  simp only [DateTime.Lt]
  omega

theorem DateTime.Lt_irrefl (a : DateTime) : ¬ DateTime.Lt a a := by
  cases a
  simp only [DateTime.Lt]
  omega

theorem DateTime.Le_Lt_trans {a b c : DateTime} :
    DateTime.Le a b → DateTime.Lt b c → DateTime.Lt a c := by
  intro hab hbc
  rcases hab with h | h
  · exact DateTime.Lt_trans h hbc
  · rw [h]; exact hbc

theorem DateTime.leb_eq_decide (a b : DateTime) :
    DateTime.leb a b = decide (DateTime.Le a b) := by
  by_cases h : DateTime.Le a b
  · simp only [h, decide_eq_true_eq, decide_True]
    exact (DateTime.leb_iff a b).mpr h
  · simp only [h, decide_False]
    by_contra hne
    exact h ((DateTime.leb_iff a b).mp (by revert hne; cases DateTime.leb a b <;> simp))

theorem foldl_laterOf_some (l : List MeasurementRow) (a : MeasurementRow) :
    ∀ b, l.foldl laterOf (some a) = some b →
      (b = a ∨ b ∈ l) ∧ ¬ DateTime.Lt b.time_stamp a.time_stamp ∧
        ∀ x ∈ l, ¬ DateTime.Lt b.time_stamp x.time_stamp := by
  induction l generalizing a with
  | nil =>
    intro b hb
    simp only [List.foldl_nil, Option.some.injEq] at hb
    subst hb
    exact ⟨Or.inl rfl, DateTime.Lt_irrefl _, by simp⟩
  | cons m t ih =>
    intro b hb
    simp only [List.foldl_cons] at hb
    by_cases hcmp : DateTime.ltb a.time_stamp m.time_stamp = true
    · have hlt : DateTime.Lt a.time_stamp m.time_stamp := (DateTime.ltb_iff _ _).mp hcmp
      rw [show laterOf (some a) m = some m from by simp [laterOf, hcmp]] at hb
      obtain ⟨hmem, hnm, hall⟩ := ih m b hb
      have hmem2 : b ∈ m :: t := by
        rcases hmem with h | h
        · exact h ▸ List.mem_cons_self m t
        · exact List.mem_cons_of_mem m h
      refine ⟨Or.inr hmem2, fun hba => hnm (DateTime.Lt_trans hba hlt), ?_⟩
      intro x hx
      rcases List.mem_cons.mp hx with h | h
      · exact h ▸ hnm
      · exact hall x h
    · rw [show laterOf (some a) m = some a from by simp [laterOf, hcmp]] at hb
      obtain ⟨hmem, hna, hall⟩ := ih a b hb
      have hnlt : ¬ DateTime.Lt a.time_stamp m.time_stamp :=
        fun h => hcmp ((DateTime.ltb_iff _ _).mpr h)
      have hmem2 : b = a ∨ b ∈ m :: t := by
        rcases hmem with h | h
        · exact Or.inl h
        · exact Or.inr (List.mem_cons_of_mem m h)
      refine ⟨hmem2, hna, ?_⟩
      intro x hx
      rcases List.mem_cons.mp hx with h | h
      · subst h
        intro hbx
        exact hnlt (DateTime.Le_Lt_trans ((DateTime.not_Lt_iff _ _).mp hna) hbx)
      · exact hall x h

theorem foldl_laterOf_isSome (l : List MeasurementRow) (a : MeasurementRow) :
    ∃ b, l.foldl laterOf (some a) = some b := by
  induction l generalizing a with
  | nil => exact ⟨a, rfl⟩
  | cons m t ih =>
    simp only [List.foldl_cons]
    by_cases hcmp : DateTime.ltb a.time_stamp m.time_stamp = true
    · rw [show laterOf (some a) m = some m from by simp [laterOf, hcmp]]
      exact ih m
    · rw [show laterOf (some a) m = some a from by simp [laterOf, hcmp]]
      exact ih a

theorem foldl_laterOf_none_eq (l : List MeasurementRow) :
    l.foldl laterOf none = none ↔ l = [] := by
  cases l with
  | nil => simp
  | cons m t =>
    simp only [List.foldl_cons, laterOf]
    obtain ⟨b, hb⟩ := foldl_laterOf_isSome t m
    simp [hb]

theorem foldl_laterOf_spec (l : List MeasurementRow) (b : MeasurementRow)
    (hb : l.foldl laterOf none = some b) :
    b ∈ l ∧ ∀ x ∈ l, ¬ DateTime.Lt b.time_stamp x.time_stamp := by
  cases l with
  | nil => simp at hb
  | cons m t =>
    simp only [List.foldl_cons, laterOf] at hb
    obtain ⟨hmem, hnm, hall⟩ := foldl_laterOf_some t m b hb
    have hmem2 : b ∈ m :: t := by
      rcases hmem with h | h
      · exact h ▸ List.mem_cons_self m t
      · exact List.mem_cons_of_mem m h
    refine ⟨hmem2, ?_⟩
    intro x hx
    rcases List.mem_cons.mp hx with h | h
    · exact h ▸ hnm
    · exact hall x h

theorem foldl_colderOf_some (l : List (String × ℚ)) (a : String × ℚ) :
    ∀ b, l.foldl colderOf (some a) = some b →
      (b = a ∨ b ∈ l) ∧ b.2 ≤ a.2 ∧ ∀ x ∈ l, b.2 ≤ x.2 := by
  induction l generalizing a with
  | nil =>
    intro b hb
    simp only [List.foldl_nil, Option.some.injEq] at hb
    subst hb
    exact ⟨Or.inl rfl, le_refl _, by simp⟩
  | cons p t ih =>
    intro b hb
    simp only [List.foldl_cons] at hb
    by_cases hcmp : p.2 < a.2
    · rw [show colderOf (some a) p = some p from by simp [colderOf, hcmp]] at hb
      obtain ⟨hmem, hbp, hall⟩ := ih p b hb
      have hmem2 : b ∈ p :: t := by
        rcases hmem with h | h
        · exact h ▸ List.mem_cons_self p t
        · exact List.mem_cons_of_mem p h
      refine ⟨Or.inr hmem2, le_trans hbp (le_of_lt hcmp), ?_⟩
      intro x hx
      rcases List.mem_cons.mp hx with h | h
      · exact h ▸ hbp
      · exact hall x h
    · rw [show colderOf (some a) p = some a from by simp [colderOf, hcmp]] at hb
      obtain ⟨hmem, hba, hall⟩ := ih a b hb
      have hmem2 : b = a ∨ b ∈ p :: t := by
        rcases hmem with h | h
        · exact Or.inl h
        · exact Or.inr (List.mem_cons_of_mem p h)
      refine ⟨hmem2, hba, ?_⟩
      intro x hx
      rcases List.mem_cons.mp hx with h | h
      · exact h ▸ le_trans hba (le_of_not_lt hcmp)
      · exact hall x h

theorem foldl_colderOf_isSome (l : List (String × ℚ)) (a : String × ℚ) :
    ∃ b, l.foldl colderOf (some a) = some b := by
  induction l generalizing a with
  | nil => exact ⟨a, rfl⟩
  | cons p t ih =>
    simp only [List.foldl_cons]
    by_cases hcmp : p.2 < a.2
    · rw [show colderOf (some a) p = some p from by simp [colderOf, hcmp]]
      exact ih p
    · rw [show colderOf (some a) p = some a from by simp [colderOf, hcmp]]
      exact ih a

theorem foldl_colderOf_none_eq (l : List (String × ℚ)) :
    l.foldl colderOf none = none ↔ l = [] := by
  cases l with
  | nil => simp
  | cons p t =>
    simp only [List.foldl_cons, colderOf]
    obtain ⟨b, hb⟩ := foldl_colderOf_isSome t p
    simp [hb]

theorem foldl_colderOf_spec (l : List (String × ℚ)) (b : String × ℚ)
    (hb : l.foldl colderOf none = some b) :
    b ∈ l ∧ ∀ x ∈ l, b.2 ≤ x.2 := by
  cases l with
  | nil => simp at hb
  | cons p t =>
    simp only [List.foldl_cons, colderOf] at hb
    obtain ⟨hmem, hbp, hall⟩ := foldl_colderOf_some t p b hb
    have hmem2 : b ∈ p :: t := by
      rcases hmem with h | h
      · exact h ▸ List.mem_cons_self p t
      · exact List.mem_cons_of_mem p h
    refine ⟨hmem2, ?_⟩
    intro x hx
    rcases List.mem_cons.mp hx with h | h
    · exact h ▸ hbp
    · exact hall x h

theorem foldl_min_spec (t : List ℚ) :
    ∀ a : ℚ, (t.foldl min a = a ∨ t.foldl min a ∈ t) ∧ t.foldl min a ≤ a ∧
      ∀ v ∈ t, t.foldl min a ≤ v := by
  induction t with
  | nil => intro a; exact ⟨Or.inl rfl, le_refl _, by simp⟩
  | cons x xs ih =>
    intro a
    simp only [List.foldl_cons]
    obtain ⟨hmem, hle, hall⟩ := ih (min a x)
    refine ⟨?_, le_trans hle (min_le_left a x), ?_⟩
    · rcases hmem with h | h
      · rcases min_choice a x with hc | hc
        · exact Or.inl (h.trans hc)
        · exact Or.inr (by rw [h, hc]; exact List.mem_cons_self x xs)
      · exact Or.inr (List.mem_cons_of_mem x h)
    · intro v hv
      rcases List.mem_cons.mp hv with h | h
      · rw [h]; exact le_trans hle (min_le_right a x)
      · exact hall v h

theorem foldl_max_spec (t : List ℚ) :
    ∀ a : ℚ, (t.foldl max a = a ∨ t.foldl max a ∈ t) ∧ a ≤ t.foldl max a ∧
      ∀ v ∈ t, v ≤ t.foldl max a := by
  induction t with
  | nil => intro a; exact ⟨Or.inl rfl, le_refl _, by simp⟩
  | cons x xs ih =>
    intro a
    simp only [List.foldl_cons]
    obtain ⟨hmem, hle, hall⟩ := ih (max a x)
    refine ⟨?_, le_trans (le_max_left a x) hle, ?_⟩
    · rcases hmem with h | h
      · rcases max_choice a x with hc | hc
        · exact Or.inl (h.trans hc)
        · exact Or.inr (by rw [h, hc]; exact List.mem_cons_self x xs)
      · exact Or.inr (List.mem_cons_of_mem x h)
    · intro v hv
      rcases List.mem_cons.mp hv with h | h
      · rw [h]; exact le_trans (le_max_right a x) hle
      · exact hall v h

theorem aggMin_spec (l : List ℚ) (h : l ≠ []) :
    aggMin l ∈ l ∧ ∀ v ∈ l, aggMin l ≤ v := by
  cases l with
  | nil => exact absurd rfl h
  | cons x xs =>
    obtain ⟨hmem, hle, hall⟩ := foldl_min_spec xs x
    simp only [aggMin]
    constructor
    · rcases hmem with h1 | h1
      · rw [h1]; exact List.mem_cons_self x xs
      · exact List.mem_cons_of_mem x h1
    · intro v hv
      rcases List.mem_cons.mp hv with h1 | h1
      · rw [h1]; exact hle
      · exact hall v h1

theorem aggMax_spec (l : List ℚ) (h : l ≠ []) :
    aggMax l ∈ l ∧ ∀ v ∈ l, v ≤ aggMax l := by
  cases l with
  | nil => exact absurd rfl h
  | cons x xs =>
    obtain ⟨hmem, hle, hall⟩ := foldl_max_spec xs x
    simp only [aggMax]
    constructor
    · rcases hmem with h1 | h1
      · rw [h1]; exact List.mem_cons_self x xs
      · exact List.mem_cons_of_mem x h1
    · intro v hv
      rcases List.mem_cons.mp hv with h1 | h1
      · rw [h1]; exact hle
      · exact hall v h1

theorem avg_between_min_max (l : List ℚ) (hne : l ≠ []) :
    aggMin l ≤ l.sum / (l.length : ℚ) ∧ l.sum / (l.length : ℚ) ≤ aggMax l := by
  have hpos : 0 < (l.length : ℚ) := by
    have := List.length_pos.mpr hne
    exact_mod_cast this
  obtain ⟨_, hminall⟩ := aggMin_spec l hne
  obtain ⟨_, hmaxall⟩ := aggMax_spec l hne
  have h1 : l.length • aggMin l ≤ l.sum := List.card_nsmul_le_sum l _ hminall
  have h2 : l.sum ≤ l.length • aggMax l := List.sum_le_card_nsmul l _ hmaxall
  rw [nsmul_eq_mul] at h1 h2
  constructor
  · rw [le_div_iff₀ hpos, mul_comm]
    exact h1
  · rw [div_le_iff₀ hpos, mul_comm]
    exact h2

theorem tempJoin_names (s : Store) (n : String) :
    n ∈ ((tempJoin s).map Prod.fst).dedup ↔ ∃ p ∈ tempJoin s, p.1 = n := by
  rw [List.mem_dedup]
  exact List.mem_map

theorem roomTempValues_ne_nil (s : Store) (n : String)
    (h : ∃ p ∈ tempJoin s, p.1 = n) : roomTempValues s n ≠ [] := by
  obtain ⟨p, hp, hpn⟩ := h
  have hmem : p.2 ∈ roomTempValues s n := by
    simp only [roomTempValues, List.mem_filterMap]
    exact ⟨p, hp, by simp [hpn]⟩
  intro hnil
  rw [hnil] at hmem
  simp at hmem

theorem describe_mem_iff (s : Store) (n : String) (e : ℚ × ℚ × ℚ) :
    (n, e) ∈ describe_temperature_in_rooms s ↔
      n ∈ ((tempJoin s).map Prod.fst).dedup ∧
        e = (aggMin (roomTempValues s n), aggMax (roomTempValues s n),
          (roomTempValues s n).sum / ((roomTempValues s n).length : ℚ)) := by
  simp only [describe_temperature_in_rooms, List.mem_map]
  constructor
  · rintro ⟨n2, hn2, heq⟩
    have hfst : n2 = n := congrArg Prod.fst heq
    subst hfst
    exact ⟨hn2, (congrArg Prod.snd heq).symm⟩
  · rintro ⟨hn, he⟩
    exact ⟨n, hn, by rw [he]⟩

/-- C1: for every device, `get_most_recent_sensor_reading` returns `none`
exactly when the device has zero measurement rows, and otherwise returns
the value of the measurement whose timestamp, compared chronologically, is
the latest, regardless of the order of the rows in the table. -/
theorem getMostRecent_spec (s : Store) (d : Device) :
    (get_most_recent_sensor_reading s d = none ↔
      s.measurements.filter (fun m => decide (m.device = d.db_id)) = []) ∧
    ∀ m ∈ s.measurements, m.device = d.db_id →
      (∀ x ∈ s.measurements, x.device = d.db_id → x ≠ m →
        DateTime.Lt x.time_stamp m.time_stamp) →
      get_most_recent_sensor_reading s d = some m.value := by
  constructor
  · unfold get_most_recent_sensor_reading
    rw [Option.map_eq_none']
    exact foldl_laterOf_none_eq _
  · intro m hm hdev hmax
    have hmf : m ∈ s.measurements.filter (fun m => decide (m.device = d.db_id)) := by
      rw [List.mem_filter]
      exact ⟨hm, by simp [hdev]⟩
    rcases hres : (s.measurements.filter (fun m => decide (m.device = d.db_id))).foldl
        laterOf none with _ | b
    · rw [(foldl_laterOf_none_eq _).mp hres] at hmf
      simp at hmf
    · obtain ⟨hbmem, hball⟩ := foldl_laterOf_spec _ b hres
      obtain ⟨hbmem2, hbdev⟩ := List.mem_filter.mp hbmem
      have hbm : b = m := by
        by_contra hne
        exact (hball m hmf) (hmax b hbmem2 (by simpa using hbdev) hne)
      unfold get_most_recent_sensor_reading
      rw [hres, hbm]
      rfl

/-- Witness for C1: two rows of device `5`, the chronologically later one
stored first; the reading is its value `22`. -/
theorem getMostRecent_spec_witness :
    get_most_recent_sensor_reading
      ⟨[⟨1, "Stue"⟩], [⟨5, "Temperatursensor", some 1⟩],
        [⟨5, 22, ⟨2024, 1, 2, 9, 30, 0⟩⟩, ⟨5, 20, ⟨2024, 1, 1, 12, 0, 0⟩⟩]⟩
      ⟨7, "Temperatursensor", some 1, 5⟩ = some 22 :=
  (getMostRecent_spec
      ⟨[⟨1, "Stue"⟩], [⟨5, "Temperatursensor", some 1⟩],
        [⟨5, 22, ⟨2024, 1, 2, 9, 30, 0⟩⟩, ⟨5, 20, ⟨2024, 1, 1, 12, 0, 0⟩⟩]⟩
      ⟨7, "Temperatursensor", some 1, 5⟩).2
    ⟨5, 22, ⟨2024, 1, 2, 9, 30, 0⟩⟩ (by decide) (by decide) (by decide)

/-- C5: `get_coldest_room` returns `none` exactly on an empty join, and
otherwise the name carried by a joined row achieving the globally minimum
measurement value over all devices; the query ignores the device type
column entirely, so relabelling every type leaves the result unchanged. -/
theorem getColdestRoom_spec (s : Store) :
    (get_coldest_room s = none ↔ coldestJoin s = []) ∧
    (∀ name, get_coldest_room s = some name →
      ∃ p ∈ coldestJoin s, p.1 = name ∧ ∀ q ∈ coldestJoin s, p.2 ≤ q.2) ∧
    ∀ f : String → String, get_coldest_room (retypeDevices f s) = get_coldest_room s := by
  refine ⟨?_, ?_, ?_⟩
  · unfold get_coldest_room
    rw [Option.map_eq_none']
    exact foldl_colderOf_none_eq _
  · intro name hname
    unfold get_coldest_room at hname
    rcases hres : (coldestJoin s).foldl colderOf none with _ | b
    · rw [hres] at hname
      simp at hname
    · rw [hres] at hname
      obtain ⟨hmem, hall⟩ := foldl_colderOf_spec _ b hres
      exact ⟨b, hmem, by simpa using hname, hall⟩
  · intro f
    have hjoin : coldestJoin (retypeDevices f s) = coldestJoin s := by
      unfold coldestJoin retypeDevices
      simp only [List.filter_map, List.flatMap_map]
      rfl
    unfold get_coldest_room
    rw [hjoin]

/-- Witness for C5: the global minimum `5` is a humidity reading in room
`Kjeller`, which dominates the temperature readings, and retyping every
device does not change the answer. -/
theorem getColdestRoom_spec_witness :
    (∃ p ∈ coldestJoin
        ⟨[⟨1, "Stue"⟩, ⟨2, "Kjeller"⟩],
          [⟨5, "Temperatursensor", some 1⟩, ⟨9, "Fuktighetssensor", some 2⟩],
          [⟨5, 20, ⟨2024, 1, 1, 12, 0, 0⟩⟩, ⟨9, 5, ⟨2024, 1, 1, 13, 0, 0⟩⟩]⟩,
      p.1 = "Kjeller" ∧ ∀ q ∈ coldestJoin
        ⟨[⟨1, "Stue"⟩, ⟨2, "Kjeller"⟩],
          [⟨5, "Temperatursensor", some 1⟩, ⟨9, "Fuktighetssensor", some 2⟩],
          [⟨5, 20, ⟨2024, 1, 1, 12, 0, 0⟩⟩, ⟨9, 5, ⟨2024, 1, 1, 13, 0, 0⟩⟩]⟩, p.2 ≤ q.2) ∧
    get_coldest_room (retypeDevices (fun _ => "Aktuator")
      ⟨[⟨1, "Stue"⟩, ⟨2, "Kjeller"⟩],
        [⟨5, "Temperatursensor", some 1⟩, ⟨9, "Fuktighetssensor", some 2⟩],
        [⟨5, 20, ⟨2024, 1, 1, 12, 0, 0⟩⟩, ⟨9, 5, ⟨2024, 1, 1, 13, 0, 0⟩⟩]⟩) =
      some "Kjeller" :=
  ⟨(getColdestRoom_spec
      ⟨[⟨1, "Stue"⟩, ⟨2, "Kjeller"⟩],
        [⟨5, "Temperatursensor", some 1⟩, ⟨9, "Fuktighetssensor", some 2⟩],
        [⟨5, 20, ⟨2024, 1, 1, 12, 0, 0⟩⟩, ⟨9, 5, ⟨2024, 1, 1, 13, 0, 0⟩⟩]⟩).2.1
      "Kjeller" (by decide),
    by
      rw [(getColdestRoom_spec
        ⟨[⟨1, "Stue"⟩, ⟨2, "Kjeller"⟩],
          [⟨5, "Temperatursensor", some 1⟩, ⟨9, "Fuktighetssensor", some 2⟩],
          [⟨5, 20, ⟨2024, 1, 1, 12, 0, 0⟩⟩, ⟨9, 5, ⟨2024, 1, 1, 13, 0, 0⟩⟩]⟩).2.2
        (fun _ => "Aktuator")]
      decide⟩

/-- C7: when the measurements table is empty, `get_coldest_room` returns
`none` rather than failing. -/
theorem getColdestRoom_empty (s : Store) (h : s.measurements = []) :
    get_coldest_room s = none := by
  unfold get_coldest_room coldestJoin
  rw [h]
  rfl

/-- Witness for C7: a store with rooms and devices but no measurements. -/
theorem getColdestRoom_empty_witness :
    get_coldest_room
      ⟨[⟨1, "Stue"⟩], [⟨5, "Temperatursensor", some 1⟩], []⟩ = none :=
  getColdestRoom_empty ⟨[⟨1, "Stue"⟩], [⟨5, "Temperatursensor", some 1⟩], []⟩ rfl

/-- C10: both device-parameterised queries read the device argument only
through its `db_id` handle: two devices with equal `db_id` give equal
results on every store. -/
theorem analytics_db_id_only (s : Store) (d1 d2 : Device) (from_ts to_ts : DateTime)
    (h : d1.db_id = d2.db_id) :
    get_most_recent_sensor_reading s d1 = get_most_recent_sensor_reading s d2 ∧
    get_sensor_readings_in_timespan s d1 from_ts to_ts =
      get_sensor_readings_in_timespan s d2 from_ts to_ts := by
  unfold get_most_recent_sensor_reading get_sensor_readings_in_timespan
  rw [h]
  exact ⟨rfl, rfl⟩

/-- Witness for C10: two devices differing in identity, type and room but
sharing `db_id = 5` are indistinguishable to both queries. -/
theorem analytics_db_id_only_witness :
    get_most_recent_sensor_reading
        ⟨[⟨1, "Stue"⟩], [⟨5, "Temperatursensor", some 1⟩],
          [⟨5, 20, ⟨2024, 1, 1, 12, 0, 0⟩⟩]⟩ ⟨1, "Temperatursensor", some 1, 5⟩ =
      get_most_recent_sensor_reading
        ⟨[⟨1, "Stue"⟩], [⟨5, "Temperatursensor", some 1⟩],
          [⟨5, 20, ⟨2024, 1, 1, 12, 0, 0⟩⟩]⟩ ⟨2, "Fuktighetssensor", none, 5⟩ ∧
    get_sensor_readings_in_timespan
        ⟨[⟨1, "Stue"⟩], [⟨5, "Temperatursensor", some 1⟩],
          [⟨5, 20, ⟨2024, 1, 1, 12, 0, 0⟩⟩]⟩ ⟨1, "Temperatursensor", some 1, 5⟩
        ⟨2024, 1, 1, 0, 0, 0⟩ ⟨2024, 1, 2, 0, 0, 0⟩ =
      get_sensor_readings_in_timespan
        ⟨[⟨1, "Stue"⟩], [⟨5, "Temperatursensor", some 1⟩],
          [⟨5, 20, ⟨2024, 1, 1, 12, 0, 0⟩⟩]⟩ ⟨2, "Fuktighetssensor", none, 5⟩
        ⟨2024, 1, 1, 0, 0, 0⟩ ⟨2024, 1, 2, 0, 0, 0⟩ :=
  analytics_db_id_only
    ⟨[⟨1, "Stue"⟩], [⟨5, "Temperatursensor", some 1⟩],
      [⟨5, 20, ⟨2024, 1, 1, 12, 0, 0⟩⟩]⟩
    ⟨1, "Temperatursensor", some 1, 5⟩ ⟨2, "Fuktighetssensor", none, 5⟩
    ⟨2024, 1, 1, 0, 0, 0⟩ ⟨2024, 1, 2, 0, 0, 0⟩ rfl

/-- C6: `get_sensor_readings_in_timespan` returns exactly the values of the
device's rows whose timestamp lies in the inclusive chronological range
`[from_ts, to_ts]`; with `from_ts = to_ts` equal to a stored timestamp that
row's value is included, and with no matching rows the result is `[]`. -/
theorem getReadingsInTimespan_spec (s : Store) (d : Device) (from_ts to_ts : DateTime) :
    (get_sensor_readings_in_timespan s d from_ts to_ts =
      (s.measurements.filter (fun m =>
        decide (m.device = d.db_id) && decide (DateTime.Le from_ts m.time_stamp) &&
          decide (DateTime.Le m.time_stamp to_ts))).map (fun m => m.value)) ∧
    (∀ m ∈ s.measurements, m.device = d.db_id → m.time_stamp = from_ts → from_ts = to_ts →
      m.value ∈ get_sensor_readings_in_timespan s d from_ts to_ts) ∧
    ((∀ m ∈ s.measurements, ¬ (m.device = d.db_id ∧ DateTime.Le from_ts m.time_stamp ∧
        DateTime.Le m.time_stamp to_ts)) →
      get_sensor_readings_in_timespan s d from_ts to_ts = []) := by
  refine ⟨?_, ?_, ?_⟩
  · simp only [get_sensor_readings_in_timespan, DateTime.leb_eq_decide]
  · intro m hm hdev hts heq
    subst heq
    unfold get_sensor_readings_in_timespan
    refine List.mem_map.mpr ⟨m, List.mem_filter.mpr ⟨hm, ?_⟩, rfl⟩
    have hle : DateTime.leb from_ts m.time_stamp = true :=
      (DateTime.leb_iff _ _).mpr (by rw [hts]; exact Or.inr rfl)
    have hle2 : DateTime.leb m.time_stamp from_ts = true :=
      (DateTime.leb_iff _ _).mpr (by rw [hts]; exact Or.inr rfl)
    simp [hdev, hle, hle2]
  · intro hnone
    unfold get_sensor_readings_in_timespan
    rw [List.map_eq_nil_iff, List.filter_eq_nil_iff]
    intro m hm
    have hn := hnone m hm
    simp only [Bool.and_eq_true, decide_eq_true_eq, DateTime.leb_iff, not_and]
    intro hdev hfrom
    exact hn ⟨hdev.1, hdev.2, hfrom⟩

/-- Witness for C6: with `from = to` equal to the stored timestamp the
row's value `20` is returned, and a disjoint range yields `[]`. -/
theorem getReadingsInTimespan_spec_witness :
    (20 : ℚ) ∈ get_sensor_readings_in_timespan
        ⟨[⟨1, "Stue"⟩], [⟨5, "Temperatursensor", some 1⟩],
          [⟨5, 20, ⟨2024, 1, 1, 12, 0, 0⟩⟩]⟩ ⟨7, "Temperatursensor", some 1, 5⟩
        ⟨2024, 1, 1, 12, 0, 0⟩ ⟨2024, 1, 1, 12, 0, 0⟩ ∧
    get_sensor_readings_in_timespan
        ⟨[⟨1, "Stue"⟩], [⟨5, "Temperatursensor", some 1⟩],
          [⟨5, 20, ⟨2024, 1, 1, 12, 0, 0⟩⟩]⟩ ⟨7, "Temperatursensor", some 1, 5⟩
        ⟨2025, 6, 1, 0, 0, 0⟩ ⟨2025, 6, 2, 0, 0, 0⟩ = [] :=
  ⟨(getReadingsInTimespan_spec
      ⟨[⟨1, "Stue"⟩], [⟨5, "Temperatursensor", some 1⟩],
        [⟨5, 20, ⟨2024, 1, 1, 12, 0, 0⟩⟩]⟩ ⟨7, "Temperatursensor", some 1, 5⟩
      ⟨2024, 1, 1, 12, 0, 0⟩ ⟨2024, 1, 1, 12, 0, 0⟩).2.1
    ⟨5, 20, ⟨2024, 1, 1, 12, 0, 0⟩⟩ (by decide) (by decide) rfl rfl,
   (getReadingsInTimespan_spec
      ⟨[⟨1, "Stue"⟩], [⟨5, "Temperatursensor", some 1⟩],
        [⟨5, 20, ⟨2024, 1, 1, 12, 0, 0⟩⟩]⟩ ⟨7, "Temperatursensor", some 1, 5⟩
      ⟨2025, 6, 1, 0, 0, 0⟩ ⟨2025, 6, 2, 0, 0, 0⟩).2.2 (by decide)⟩

/-- C2: the keys of `describe_temperature_in_rooms` are exactly the room
names with at least one temperature-sensor measurement, and each entry is
the (minimum, maximum, unweighted mean) of the room's group values; rooms
whose measurements all come from other device types are absent. -/
theorem describeTemperature_spec (s : Store) :
    (∀ n : String, (∃ e ∈ describe_temperature_in_rooms s, e.1 = n) ↔
      ∃ p ∈ tempJoin s, p.1 = n) ∧
    ∀ n mn mx av, (n, (mn, mx, av)) ∈ describe_temperature_in_rooms s →
      roomTempValues s n ≠ [] ∧
      mn ∈ roomTempValues s n ∧ (∀ v ∈ roomTempValues s n, mn ≤ v) ∧
      mx ∈ roomTempValues s n ∧ (∀ v ∈ roomTempValues s n, v ≤ mx) ∧
      av = (roomTempValues s n).sum / ((roomTempValues s n).length : ℚ) := by
  constructor
  · intro n
    rw [← tempJoin_names]
    constructor
    · rintro ⟨e, he, hen⟩
      obtain ⟨n2, hn2, heq⟩ := List.mem_map.mp he
      rw [← hen, ← heq]
      exact hn2
    · intro hn
      exact ⟨(n, (aggMin (roomTempValues s n), aggMax (roomTempValues s n),
          (roomTempValues s n).sum / ((roomTempValues s n).length : ℚ))),
        (describe_mem_iff s n _).mpr ⟨hn, rfl⟩, rfl⟩
  · intro n mn mx av hmem
    obtain ⟨hn, he⟩ := (describe_mem_iff s n _).mp hmem
    have hne : roomTempValues s n ≠ [] :=
      roomTempValues_ne_nil s n ((tempJoin_names s n).mp hn)
    obtain ⟨hminmem, hminall⟩ := aggMin_spec _ hne
    obtain ⟨hmaxmem, hmaxall⟩ := aggMax_spec _ hne
    have h1 : mn = aggMin (roomTempValues s n) := congrArg (fun t => t.1) he
    have h2 : mx = aggMax (roomTempValues s n) := congrArg (fun t => t.2.1) he
    have h3 : av = (roomTempValues s n).sum / ((roomTempValues s n).length : ℚ) :=
      congrArg (fun t => t.2.2) he
    rw [h1, h2, h3]
    exact ⟨hne, hminmem, hminall, hmaxmem, hmaxall, rfl⟩

/-- Witness for C2: room `Kitchen` holds two temperature rows `18` and
`22`, whose entry is `(18, 22, 20)`; room `Bath` has only a humidity row
and is absent from the mapping. -/
theorem describeTemperature_spec_witness :
    (roomTempValues
        ⟨[⟨1, "Kitchen"⟩, ⟨2, "Bath"⟩],
          [⟨5, "Temperatursensor", some 1⟩, ⟨9, "Fuktighetssensor", some 2⟩],
          [⟨5, 18, ⟨2024, 1, 1, 12, 0, 0⟩⟩, ⟨5, 22, ⟨2024, 1, 1, 13, 0, 0⟩⟩,
            ⟨9, 55, ⟨2024, 1, 1, 14, 0, 0⟩⟩]⟩ "Kitchen" ≠ [] ∧
      (18 : ℚ) ∈ roomTempValues
        ⟨[⟨1, "Kitchen"⟩, ⟨2, "Bath"⟩],
          [⟨5, "Temperatursensor", some 1⟩, ⟨9, "Fuktighetssensor", some 2⟩],
          [⟨5, 18, ⟨2024, 1, 1, 12, 0, 0⟩⟩, ⟨5, 22, ⟨2024, 1, 1, 13, 0, 0⟩⟩,
            ⟨9, 55, ⟨2024, 1, 1, 14, 0, 0⟩⟩]⟩ "Kitchen" ∧
      (∀ v ∈ roomTempValues
        ⟨[⟨1, "Kitchen"⟩, ⟨2, "Bath"⟩],
          [⟨5, "Temperatursensor", some 1⟩, ⟨9, "Fuktighetssensor", some 2⟩],
          [⟨5, 18, ⟨2024, 1, 1, 12, 0, 0⟩⟩, ⟨5, 22, ⟨2024, 1, 1, 13, 0, 0⟩⟩,
            ⟨9, 55, ⟨2024, 1, 1, 14, 0, 0⟩⟩]⟩ "Kitchen", (18 : ℚ) ≤ v) ∧
      (22 : ℚ) ∈ roomTempValues
        ⟨[⟨1, "Kitchen"⟩, ⟨2, "Bath"⟩],
          [⟨5, "Temperatursensor", some 1⟩, ⟨9, "Fuktighetssensor", some 2⟩],
          [⟨5, 18, ⟨2024, 1, 1, 12, 0, 0⟩⟩, ⟨5, 22, ⟨2024, 1, 1, 13, 0, 0⟩⟩,
            ⟨9, 55, ⟨2024, 1, 1, 14, 0, 0⟩⟩]⟩ "Kitchen" ∧
      (∀ v ∈ roomTempValues
        ⟨[⟨1, "Kitchen"⟩, ⟨2, "Bath"⟩],
          [⟨5, "Temperatursensor", some 1⟩, ⟨9, "Fuktighetssensor", some 2⟩],
          [⟨5, 18, ⟨2024, 1, 1, 12, 0, 0⟩⟩, ⟨5, 22, ⟨2024, 1, 1, 13, 0, 0⟩⟩,
            ⟨9, 55, ⟨2024, 1, 1, 14, 0, 0⟩⟩]⟩ "Kitchen", v ≤ (22 : ℚ)) ∧
      ([(18 : ℚ), 22].sum / (([(18 : ℚ), 22] : List ℚ).length : ℚ)) =
        (roomTempValues
          ⟨[⟨1, "Kitchen"⟩, ⟨2, "Bath"⟩],
            [⟨5, "Temperatursensor", some 1⟩, ⟨9, "Fuktighetssensor", some 2⟩],
            [⟨5, 18, ⟨2024, 1, 1, 12, 0, 0⟩⟩, ⟨5, 22, ⟨2024, 1, 1, 13, 0, 0⟩⟩,
              ⟨9, 55, ⟨2024, 1, 1, 14, 0, 0⟩⟩]⟩ "Kitchen").sum /
          ((roomTempValues
            ⟨[⟨1, "Kitchen"⟩, ⟨2, "Bath"⟩],
              [⟨5, "Temperatursensor", some 1⟩, ⟨9, "Fuktighetssensor", some 2⟩],
              [⟨5, 18, ⟨2024, 1, 1, 12, 0, 0⟩⟩, ⟨5, 22, ⟨2024, 1, 1, 13, 0, 0⟩⟩,
                ⟨9, 55, ⟨2024, 1, 1, 14, 0, 0⟩⟩]⟩ "Kitchen").length : ℚ)) ∧
    ([(18 : ℚ), 22].sum / (([(18 : ℚ), 22] : List ℚ).length : ℚ)) = 20 ∧
    ¬ (∃ e ∈ describe_temperature_in_rooms
      ⟨[⟨1, "Kitchen"⟩, ⟨2, "Bath"⟩],
        [⟨5, "Temperatursensor", some 1⟩, ⟨9, "Fuktighetssensor", some 2⟩],
        [⟨5, 18, ⟨2024, 1, 1, 12, 0, 0⟩⟩, ⟨5, 22, ⟨2024, 1, 1, 13, 0, 0⟩⟩,
          ⟨9, 55, ⟨2024, 1, 1, 14, 0, 0⟩⟩]⟩, e.1 = "Bath") :=
  ⟨(describeTemperature_spec
      ⟨[⟨1, "Kitchen"⟩, ⟨2, "Bath"⟩],
        [⟨5, "Temperatursensor", some 1⟩, ⟨9, "Fuktighetssensor", some 2⟩],
        [⟨5, 18, ⟨2024, 1, 1, 12, 0, 0⟩⟩, ⟨5, 22, ⟨2024, 1, 1, 13, 0, 0⟩⟩,
          ⟨9, 55, ⟨2024, 1, 1, 14, 0, 0⟩⟩]⟩).2 "Kitchen" 18 22
      ([(18 : ℚ), 22].sum / (([(18 : ℚ), 22] : List ℚ).length : ℚ))
      ((describe_mem_iff _ "Kitchen" _).mpr ⟨by decide, rfl⟩),
    by norm_num,
    fun hex =>
      absurd (((describeTemperature_spec
        ⟨[⟨1, "Kitchen"⟩, ⟨2, "Bath"⟩],
          [⟨5, "Temperatursensor", some 1⟩, ⟨9, "Fuktighetssensor", some 2⟩],
          [⟨5, 18, ⟨2024, 1, 1, 12, 0, 0⟩⟩, ⟨5, 22, ⟨2024, 1, 1, 13, 0, 0⟩⟩,
            ⟨9, 55, ⟨2024, 1, 1, 14, 0, 0⟩⟩]⟩).1 "Bath").mp hex) (by decide)⟩

/-- C9: every entry of `describe_temperature_in_rooms` satisfies
`min ≤ avg ≤ max`. -/
theorem describeTemperature_avg_bounds (s : Store) :
    ∀ n mn mx av, (n, (mn, mx, av)) ∈ describe_temperature_in_rooms s →
      mn ≤ av ∧ av ≤ mx := by
  intro n mn mx av hmem
  obtain ⟨hn, he⟩ := (describe_mem_iff s n _).mp hmem
  have hne : roomTempValues s n ≠ [] :=
    roomTempValues_ne_nil s n ((tempJoin_names s n).mp hn)
  obtain ⟨h1, h2⟩ := avg_between_min_max (roomTempValues s n) hne
  have e1 : mn = aggMin (roomTempValues s n) := congrArg (fun t => t.1) he
  have e2 : mx = aggMax (roomTempValues s n) := congrArg (fun t => t.2.1) he
  have e3 : av = (roomTempValues s n).sum / ((roomTempValues s n).length : ℚ) :=
    congrArg (fun t => t.2.2) he
  rw [e1, e2, e3]
  exact ⟨h1, h2⟩

/-- Witness for C9: the `Kitchen` entry with values `18` and `22` has its
mean between its minimum and maximum. -/
theorem describeTemperature_avg_bounds_witness :
    (18 : ℚ) ≤ ([(18 : ℚ), 22].sum / (([(18 : ℚ), 22] : List ℚ).length : ℚ)) ∧
      ([(18 : ℚ), 22].sum / (([(18 : ℚ), 22] : List ℚ).length : ℚ)) ≤ (22 : ℚ) :=
  describeTemperature_avg_bounds
    ⟨[⟨1, "Kitchen"⟩, ⟨2, "Bath"⟩],
      [⟨5, "Temperatursensor", some 1⟩, ⟨9, "Fuktighetssensor", some 2⟩],
      [⟨5, 18, ⟨2024, 1, 1, 12, 0, 0⟩⟩, ⟨5, 22, ⟨2024, 1, 1, 13, 0, 0⟩⟩,
        ⟨9, 55, ⟨2024, 1, 1, 14, 0, 0⟩⟩]⟩ "Kitchen" 18 22
    ([(18 : ℚ), 22].sum / (([(18 : ℚ), 22] : List ℚ).length : ℚ))
    ((describe_mem_iff _ "Kitchen" _).mpr ⟨by decide, rfl⟩)

/-- C3: an hour is returned by `get_hours_when_humidity_above_average`
precisely when strictly more than three qualifying rows fall in it; exactly
three qualifying rows exclude the hour. -/
theorem getHours_count_spec (s : Store) (room_name : String) (day : Date) (h : Nat) :
    (h ∈ get_hours_when_humidity_above_average s room_name day ↔
      3 < ((humidityRows s room_name day).filter
        (fun m => decide (m.time_stamp.hour = h))).length) ∧
    (((humidityRows s room_name day).filter
        (fun m => decide (m.time_stamp.hour = h))).length = 3 →
      h ∉ get_hours_when_humidity_above_average s room_name day) := by
  have hiff : h ∈ get_hours_when_humidity_above_average s room_name day ↔
      3 < ((humidityRows s room_name day).filter
        (fun m => decide (m.time_stamp.hour = h))).length := by
    unfold get_hours_when_humidity_above_average
    rw [List.mem_filter, List.mem_dedup, List.mem_map]
    constructor
    · rintro ⟨-, hcnt⟩
      simpa using hcnt
    · intro hcnt
      refine ⟨?_, by simpa using hcnt⟩
      have hpos : 0 < ((humidityRows s room_name day).filter
          (fun m => decide (m.time_stamp.hour = h))).length := by omega
      obtain ⟨m, hm⟩ := List.exists_mem_of_length_pos hpos
      obtain ⟨hmm, hmh⟩ := List.mem_filter.mp hm
      exact ⟨m, hmm, by simpa using hmh⟩
  refine ⟨hiff, fun h3 hmem => ?_⟩
  have := hiff.mp hmem
  omega

/-- C4: every row counted by the humidity query exceeds the one threshold
`AVG(value)` of the hardcoded device `21` on the day, an average that does
not mention the queried room; consequently a counted row of one room query
also qualifies under any other room name its device's room actually bears. -/
theorem getHours_threshold_fixed (s : Store) (day : Date) (r1 r2 : String) :
    (∀ m ∈ humidityRows s r1 day, ∃ t : ℚ,
      humidityThreshold s day = some t ∧ t < m.value ∧
      device21DayValues s day ≠ [] ∧
      t = (device21DayValues s day).sum / ((device21DayValues s day).length : ℚ)) ∧
    ∀ m ∈ humidityRows s r1 day,
      (∃ d ∈ s.devices, d.id = m.device ∧ d.dtype = "Fuktighetssensor" ∧
        ∃ r ∈ s.rooms, some r.id = d.room ∧ r.name = r2) →
      m ∈ humidityRows s r2 day := by
  constructor
  · intro m hm
    obtain ⟨hjoin, hcond⟩ := List.mem_filter.mp hm
    rw [Bool.and_eq_true] at hcond
    obtain ⟨hdate, hmatch⟩ := hcond
    rcases hth : humidityThreshold s day with _ | t
    · rw [hth] at hmatch
      simp at hmatch
    · rw [hth] at hmatch
      have hlt : t < m.value := by simpa using hmatch
      rcases hdv : device21DayValues s day with _ | ⟨v, vs⟩
      · rw [humidityThreshold, hdv] at hth
        simp at hth
      · have hth2 := hth
        rw [humidityThreshold, hdv] at hth2
        have hte : ((v :: vs).sum / (((v :: vs).length : ℕ) : ℚ)) = t :=
          Option.some_inj.mp hth2
        exact ⟨t, rfl, hlt, by simp, hte.symm⟩
  · intro m hm hplace
    obtain ⟨d, hd, hdid, hdtype, r, hr, hrid, hrname⟩ := hplace
    obtain ⟨hjoin, hcond⟩ := List.mem_filter.mp hm
    obtain ⟨m0, hm0, hinner⟩ := List.mem_flatMap.mp hjoin
    obtain ⟨d0, hd0, hmap⟩ := List.mem_flatMap.mp hinner
    obtain ⟨r0, hr0, hmr⟩ := List.mem_map.mp hmap
    have hmm0 : m0 = m := hmr
    subst hmm0
    refine List.mem_filter.mpr ⟨?_, hcond⟩
    refine List.mem_flatMap.mpr ⟨m0, hm0, ?_⟩
    refine List.mem_flatMap.mpr ⟨d, List.mem_filter.mpr ⟨hd, ?_⟩, ?_⟩
    · simp [hdid, hdtype]
    · refine List.mem_map.mpr ⟨r, List.mem_filter.mpr ⟨hr, ?_⟩, rfl⟩
      simp [hrid, hrname]

theorem humidityStore_threshold :
    humidityThreshold humidityStore humidityDay = some 50 := by
  have h : device21DayValues humidityStore humidityDay = [50] := by decide
  rw [humidityThreshold, h]
  norm_num

theorem humidityStore_rows :
    humidityRows humidityStore "Stue" humidityDay = humidityStoreRows := by
  unfold humidityRows
  rw [humidityStore_threshold]
  decide

/-- Witness for C3: hour 10 with four qualifying rows is returned, hour 11
with exactly three is not. -/
theorem getHours_count_spec_witness :
    10 ∈ get_hours_when_humidity_above_average humidityStore "Stue" humidityDay ∧
    11 ∉ get_hours_when_humidity_above_average humidityStore "Stue" humidityDay :=
  ⟨(getHours_count_spec humidityStore "Stue" humidityDay 10).1.mpr
      (by rw [humidityStore_rows]; decide),
    (getHours_count_spec humidityStore "Stue" humidityDay 11).2
      (by rw [humidityStore_rows]; decide)⟩

/-- Witness for C4: the counted row valued `60` exceeds the device-21
average threshold, and membership transfers along its device's room name. -/
theorem getHours_threshold_fixed_witness :
    (∃ t : ℚ, humidityThreshold humidityStore humidityDay = some t ∧ t < (60 : ℚ) ∧
      device21DayValues humidityStore humidityDay ≠ [] ∧
      t = (device21DayValues humidityStore humidityDay).sum /
        ((device21DayValues humidityStore humidityDay).length : ℚ)) ∧
    (⟨9, 60, ⟨2024, 3, 5, 10, 0, 0⟩⟩ : MeasurementRow) ∈
      humidityRows humidityStore "Stue" humidityDay :=
  ⟨(getHours_threshold_fixed humidityStore humidityDay "Stue" "Stue").1
      ⟨9, 60, ⟨2024, 3, 5, 10, 0, 0⟩⟩ (by rw [humidityStore_rows]; decide),
    (getHours_threshold_fixed humidityStore humidityDay "Stue" "Stue").2
      ⟨9, 60, ⟨2024, 3, 5, 10, 0, 0⟩⟩ (by rw [humidityStore_rows]; decide)
      (by decide)⟩

/-- C8: every analytics operation is read-only: run in state-passing form
it may replace the cursor contents but leaves the `rooms`, `devices` and
`measurements` tables of the store exactly as they were. -/
theorem analytics_read_only (sess : Session) (sensor : Device)
    (from_ts to_ts : DateTime) (room_name : String) (day : Date) :
    ((runGetMostRecentSensorReading sess sensor).1.db.rooms = sess.db.rooms ∧
      (runGetMostRecentSensorReading sess sensor).1.db.devices = sess.db.devices ∧
      (runGetMostRecentSensorReading sess sensor).1.db.measurements = sess.db.measurements) ∧
    ((runGetColdestRoom sess).1.db.rooms = sess.db.rooms ∧
      (runGetColdestRoom sess).1.db.devices = sess.db.devices ∧
      (runGetColdestRoom sess).1.db.measurements = sess.db.measurements) ∧
    ((runGetSensorReadingsInTimespan sess sensor from_ts to_ts).1.db.rooms = sess.db.rooms ∧
      (runGetSensorReadingsInTimespan sess sensor from_ts to_ts).1.db.devices = sess.db.devices ∧
      (runGetSensorReadingsInTimespan sess sensor from_ts to_ts).1.db.measurements =
        sess.db.measurements) ∧
    ((runDescribeTemperatureInRooms sess).1.db.rooms = sess.db.rooms ∧
      (runDescribeTemperatureInRooms sess).1.db.devices = sess.db.devices ∧
      (runDescribeTemperatureInRooms sess).1.db.measurements = sess.db.measurements) ∧
    ((runGetHoursWhenHumidityAboveAverage sess room_name day).1.db.rooms = sess.db.rooms ∧
      (runGetHoursWhenHumidityAboveAverage sess room_name day).1.db.devices = sess.db.devices ∧
      (runGetHoursWhenHumidityAboveAverage sess room_name day).1.db.measurements =
        sess.db.measurements) :=
  ⟨⟨rfl, rfl, rfl⟩, ⟨rfl, rfl, rfl⟩, ⟨rfl, rfl, rfl⟩, ⟨rfl, rfl, rfl⟩, ⟨rfl, rfl, rfl⟩⟩
